import Mathlib

/-!
Verification development for `src/dateutil/parser/_parser.py`.

The Python module is embedded shallowly: each Lean definition below mirrors one
function or method of the source file (names follow the source where Lean
allows).  Machine-level caveats of the embedding, stated once here:

* Character predicates `isword`/`isnum` model `str.isalpha`/`str.isdecimal`
  on the ASCII range (all inputs considered in this development are ASCII);
  `isspace` models `str.isspace` by its full standard character set.
* `float(...)` is modelled by exact rationals (`pyFloat`); the tokens that
  reach it are nonnegative decimal literals, where IEEE rounding does not
  affect any property proved here.
* Python exceptions (`ValueError`, `IndexError`, `TypeError`,
  `AttributeError`, `AssertionError`) are modelled by `Except PErr`; the
  in-place mutation performed before a raise in `_ymd.append` is kept by
  returning the mutated accumulator next to the error.
-/

deriving instance DecidableEq for Except

namespace Dateutil

/-- Error taxonomy: one constructor per distinct raise site / exception class
observable in the source. -/
inductive PErr where
  | valueError      -- generic `ValueError` (unrecognized token, offset widths, unpacking)
  | dupMonth        -- `ValueError` in `_ymd.append` when the month slot is occupied
  | dupDay          -- `ValueError` in `_ymd.append` when the day slot is occupied
  | dupYear         -- `ValueError` in `_ymd.append` when the year slot is occupied
  | labelConflict   -- `ValueError(label)` in `_ymd.append` for a >2-digit/-100 value
  | intConv         -- `ValueError` from `int(...)`/`float(...)` conversion
  | assertFailed    -- `AssertionError` (asserts in `_ymd._resolve_from_stridxs`)
  | indexError      -- `IndexError` from out-of-range list indexing
  | typeError       -- `TypeError` (e.g. membership test on a bound method)
  | attrError       -- `AttributeError` (`list` has no attribute `get`)
  | ampmRange       -- `ValueError('hour must be in 0..12')` in `_ampm_valid`
  | noDate          -- `ValueError('String does not contain a date')` in `parse`
  | validateFailed  -- `ValueError(timestr)` raised when `info.validate(res)` is falsy
  | invalidDate     -- `ValueError` from `datetime` field validation in the builder
deriving Repr, DecidableEq

/-- Character set of Python's `str.isspace` (the standard whitespace
codepoints). -/
def pyIsSpaceChars : List Char :=
  [' ', '\t', '\n', '\u000B', '\u000C', '\r'] ++
    ([0x1C, 0x1D, 0x1E, 0x1F, 0x85, 0xA0, 0x1680,
      0x2000, 0x2001, 0x2002, 0x2003, 0x2004, 0x2005, 0x2006, 0x2007,
      0x2008, 0x2009, 0x200A, 0x2028, 0x2029, 0x202F, 0x205F, 0x3000].map Char.ofNat)

/-- Model of `_timelex.isword` (`str.isalpha`, ASCII fragment). -/
def isword (c : Char) : Bool := c.isAlpha

/-- Model of `_timelex.isnum` (`str.isdecimal`, ASCII fragment). -/
def isnum (c : Char) : Bool := c.isDigit

/-- Model of `_timelex.isspace` (`str.isspace`). -/
def isspace (c : Char) : Bool := pyIsSpaceChars.contains c

/-- Model of Python `str.isdigit` on the ASCII range: nonempty and all digits. -/
def pyIsdigit (s : String) : Bool := s ≠ "" && s.data.all Char.isDigit

/-- Decimal value of a list of digit characters. -/
def digitsVal (cs : List Char) : Nat :=
  cs.foldl (fun a c => a * 10 + (c.toNat - 48)) 0

/-- Decimal value of a digit run (`int` of an all-digit string). -/
def strNatVal (s : String) : Nat := digitsVal s.data

/-- Case-folding (`str.lower`, ASCII fragment). -/
def lowerStr (s : String) : String := (s.data.map Char.toLower).asString

/-- Splitting a character list on `.` (Python `s.split('.')`). -/
def splitDot : List Char → List (List Char)
  | [] => [[]]
  | c :: rest =>
    if c = '.' then [] :: splitDot rest
    else
      match splitDot rest with
      | h :: t => (c :: h) :: t
      | [] => [[c]]

/-- Model of Python `int(s)` on the strings this module feeds it (unsigned
digit runs): any other shape raises `ValueError`. -/
def pyIntOfString (s : String) : Option Int :=
  if pyIsdigit s then some (strNatVal s : Int) else none

/-- Model of Python `float(s)` on the nonnegative decimal literals the
tokenizer can produce (digit runs with at most one dot), as an exact
rational; anything else raises `ValueError` (`none`). -/
def pyFloat (s : String) : Option ℚ :=
  let cs := s.data
  if cs ≠ [] && cs.all (fun c => c.isDigit || c = '.') && cs.count '.' ≤ 1
      && cs.any Char.isDigit then
    match splitDot s.data with
    | [ip] => some ((digitsVal ip : ℚ))
    | [ip, fp] => some ((digitsVal ip : ℚ) + (digitsVal fp : ℚ) / ((10 : ℚ) ^ fp.length))
    | _ => none
  else none

/-- Model of Python `int(x)` on a float value: truncation toward zero. -/
def ratTrunc (q : ℚ) : Int := q.num / (q.den : Int)

/-- Model of Python `x % 1` for a nonnegative float: the fractional part. -/
def ratFrac (q : ℚ) : ℚ := q - (⌊q⌋ : ℚ)

/-- Python slicing helper `s[:n]`. -/
def strTake (s : String) (n : Nat) : String := (s.data.take n).asString

/-- Python slicing helper `s[n:]`. -/
def strDrop (s : String) (n : Nat) : String := (s.data.drop n).asString

/-- Python slicing helper `s[a:b]` for `0 ≤ a ≤ b`. -/
def strSlice (s : String) (a b : Nat) : String := ((s.data.drop a).take (b - a)).asString

/-! ## The tokenizer (`_timelex`) -/

/-- Output of one run of the character loop inside `_timelex.get_token`:
the accumulated token, the `seenletters` flag, the remaining character
stream (instream prefixed by the pushback stack), and the `eof` flag. -/
structure LoopOut where
  token : List Char
  seen : Bool
  rest : List Char
  eof : Bool
deriving Repr, DecidableEq

/-- The `while not self.eof` loop of `_timelex.get_token`, entered after the
first character fixed the state (`'a'` for words, `'0'` for numbers).  The
states are kept as the Python string values.  Characters pushed back after
`self.eof` was set are dead, exactly as in the source (`_get_char` is never
called once `eof` holds). -/
def lexLoop : List Char → String → Bool → List Char → LoopOut
  | [], _, seen, token => ⟨token, seen, [], true⟩
  | c :: rest, state, seen, token =>
    if state = "a" then
      if isword c then lexLoop rest state seen (token ++ [c])
      else if c = '.' then
        match rest with
        | [] => ⟨token, seen, [c], true⟩
        | d :: rest2 =>
          if isword d then lexLoop rest2 state true (token ++ [c, d])
          else if isnum d then ⟨token ++ [c], seen, d :: rest2, false⟩
          else ⟨token, seen, c :: d :: rest2, false⟩
      else ⟨token, seen, c :: rest, false⟩
    else if state = "0" then
      if isnum c then lexLoop rest state seen (token ++ [c])
      else if c = '.' || (c = ',' && token.length ≥ 2) then
        match rest with
        | [] => ⟨token, seen, [c], true⟩
        | d :: rest2 =>
          if isnum d then lexLoop rest2 state seen (token ++ [c, d])
          else if isword d && c = '.' then ⟨token, seen, c :: d :: rest2, false⟩
          else ⟨token, seen, c :: d :: rest2, false⟩
      else ⟨token, seen, c :: rest, false⟩
    else ⟨token, seen, c :: rest, false⟩

/-- Model of `re.split` with the capturing pattern `([\.,])`: split on every
dot or comma, keeping the separators (and empty pieces) in place. -/
def pySplitKeep : List Char → List (List Char)
  | [] => [[]]
  | c :: rest =>
    if c = '.' || c = ',' then
      [] :: [c] :: pySplitKeep rest
    else
      match pySplitKeep rest with
      | h :: t => (c :: h) :: t
      | [] => [[c]]

/-- Result of `_timelex.get_token`: the returned `(state, token)` pair, the
remaining character stream, the `eof` flag, and the `(state, token)` pairs
appended to `self.tokenstack` (which `get_token` never reads back). -/
structure TokOut where
  state : Option String
  text : Option String
  rest : List Char
  eof : Bool
  queued : List (String × String)
deriving Repr, DecidableEq

/-- Post-processing at the end of `get_token` for a token accumulated in
state `'a'` or `'0'`: the re-split of mixed word/number runs, and the
comma-to-dot normalization guarded by `state == '0.'` — a value the `state`
variable never holds in this source (it is only ever `None`, `'a'` or
`'0'`), ported literally. -/
def postProcess (state : String) (out : LoopOut) : TokOut :=
  let tokenChars := out.token
  let resplit : Bool :=
    (state = "a" || state = "0") &&
      (out.seen || tokenChars.count '.' > 1 ||
        (tokenChars.getLast? = some '.' || tokenChars.getLast? = some ','))
  let pieces := pySplitKeep tokenChars
  let token1 := if resplit then pieces.headD [] else tokenChars
  let queued := if resplit then
      ((pieces.drop 1).filter (fun p => p ≠ [])).map (fun p => (state, p.asString))
    else []
  let token2 := if state = "0." && token1.count '.' = 0 then
      token1.map (fun c => if c = ',' then '.' else c)
    else token1
  ⟨some state, some token2.asString, out.rest, out.eof, queued⟩

/-- Model of `_timelex.get_token`.  The branch for a leading whitespace or
punctuation character leaves `state` at `None`, exactly as in the source. -/
def getToken (input : List Char) (eof : Bool) : TokOut :=
  if eof then ⟨none, none, input, true, []⟩
  else
    match input with
    | [] => ⟨none, none, [], true, []⟩
    | c :: rest =>
      if isword c then postProcess "a" (lexLoop rest "a" false [c])
      else if isnum c then postProcess "0" (lexLoop rest "0" false [c])
      else if isspace c then ⟨none, some " ", rest, false, []⟩
      else ⟨none, some (String.singleton c), rest, false, []⟩

/-- Iterated tokenization following `_timelex.__next__`: iteration raises
`StopIteration` as soon as the first component of the returned pair is
`None` — which happens at end of input but also for every whitespace or
punctuation token, since those leave `state` at `None`. -/
def lexAll : Nat → List Char → Bool → List String
  | 0, _, _ => []
  | fuel + 1, input, eof =>
    let t := getToken input eof
    match t.state, t.text with
    | some _, some txt => txt :: lexAll fuel t.rest t.eof
    | _, _ => []

/-- Model of the token sequence that `parser._parse` consumes
(`l = _timelex.split(timestr)`): the texts of the tokens yielded by
iterating `get_token` under `__next__`'s stopping rule.  (In the source,
`split` is additionally invoked unbound on the class and `__next__` yields
`(state, token)` pairs rather than texts, so the real call raises
`TypeError`; the texts are what the dispatch loop's comparisons and
`float(...)` calls consume, and are used here.) -/
def timelexSplit (s : String) : List String :=
  lexAll (s.data.length + 1) s.data false

/-! ## The locale vocabulary table (`parserinfo`) -/

/-- `parserinfo.JUMP`. -/
def JUMP : List String :=
  [" ", ".", ",", ";", "-", "/", "'",
   "at", "on", "and", "ad", "m", "t", "of",
   "st", "nd", "rd", "th"]

/-- `parserinfo.WEEKDAYS`. -/
def WEEKDAYS : List (List String) :=
  [["Mon", "Monday"], ["Tue", "Tuesday"], ["Wed", "Wednesday"],
   ["Thu", "Thursday"], ["Fri", "Friday"], ["Sat", "Saturday"],
   ["Sun", "Sunday"]]

/-- `parserinfo.MONTHS`. -/
def MONTHS : List (List String) :=
  [["Jan", "January"], ["Feb", "February"], ["Mar", "March"],
   ["Apr", "April"], ["May", "May"], ["Jun", "June"], ["Jul", "July"],
   ["Aug", "August"], ["Sep", "Sept", "September"], ["Oct", "October"],
   ["Nov", "November"], ["Dec", "December"]]

/-- `parserinfo.HMS`. -/
def HMS : List (List String) :=
  [["h", "hour", "hours"], ["m", "minute", "minutes"], ["s", "second", "seconds"]]

/-- `parserinfo.AMPM`. -/
def AMPM : List (List String) := [["am", "a"], ["pm", "p"]]

/-- `parserinfo.UTCZONE`. -/
def UTCZONE : List String := ["UTC", "GMT", "Z", "z"]

/-- `parserinfo.PERTAIN`. -/
def PERTAIN : List String := ["of"]

/-- `parserinfo._convert`: a word-to-index table with case-folded keys. -/
def convertTab (lst : List (List String)) : List (String × Nat) :=
  (lst.enum.map (fun p => p.2.map (fun v => (lowerStr v, p.1)))).flatten

/-- The `parserinfo` state that matters to `_parse`: the two behaviour flags
and the reference year read from `time.localtime().tm_year` at construction
(made an explicit field, as this is the module's only ambient input). -/
structure Pinfo where
  dayfirst : Bool := false
  yearfirst : Bool := false
  refYear : Int := 2026
deriving Repr, DecidableEq

/-- `parserinfo._century` (`self._year // 100 * 100`; the reference year is
positive, where Lean's `Int` division agrees with Python's floor division). -/
def century (info : Pinfo) : Int := info.refYear / 100 * 100

/-- `parserinfo.jump`. -/
def jumpF (name : String) : Bool :=
  (JUMP.map (fun s => lowerStr s)).contains (lowerStr name)

/-- `parserinfo.weekday`. -/
def weekdayF (name : String) : Option Nat :=
  (convertTab WEEKDAYS).lookup (lowerStr name)

/-- `parserinfo.month` (table index plus one). -/
def monthF (name : String) : Option Nat :=
  ((convertTab MONTHS).lookup (lowerStr name)).map (· + 1)

/-- `parserinfo.hms`. -/
def hmsF (name : String) : Option Nat :=
  (convertTab HMS).lookup (lowerStr name)

/-- `parserinfo.ampm`. -/
def ampmF (name : String) : Option Nat :=
  (convertTab AMPM).lookup (lowerStr name)

/-- `parserinfo.pertain`. -/
def pertainF (name : String) : Bool :=
  (PERTAIN.map (fun s => lowerStr s)).contains (lowerStr name)

/-- `parserinfo.utczone`. -/
def utczoneF (name : String) : Bool :=
  (UTCZONE.map (fun s => lowerStr s)).contains (lowerStr name)

/-- `parserinfo.tzoffset`: the source checks `name in self._utczone` without
case-folding `name` (the dict keys are folded), then consults the empty
`TZOFFSET` table. -/
def tzoffsetF (name : String) : Option Int :=
  if (UTCZONE.map (fun s => lowerStr s)).contains name then some 0 else none

/-- `parserinfo.convertyear`.  The source asserts `year >= 0` on entry; all
call sites pass nonnegative years. -/
def convertyear (info : Pinfo) (year : Int) (centurySpecified : Bool) : Int :=
  if year < 100 ∧ ¬centurySpecified then
    let year := year + century info
    if (year - info.refYear).natAbs ≥ 50 then
      if year < info.refYear then year + 100 else year - 100
    else year
  else year

/-! ## The partial-result record (`parser._result`) -/

/-- The mutable result record: the twelve `__slots__`, plus the
`century_specified` class attribute. -/
structure MRes where
  year : Option Int := none
  month : Option Int := none
  day : Option Int := none
  weekday : Option Int := none
  hour : Option Int := none
  minute : Option Int := none
  second : Option Int := none
  microsecond : Option Int := none
  tzname : Option String := none
  tzoffset : Option Int := none
  ampm : Option Int := none
  any_unused_tokens : Option (List String) := none
  century_specified : Bool := false
deriving Repr, DecidableEq

/-- `_resultbase.__len__`: the number of slots holding a non-`None` value. -/
def resLen (r : MRes) : Nat :=
  [r.year.isSome, r.month.isSome, r.day.isSome, r.weekday.isSome,
   r.hour.isSome, r.minute.isSome, r.second.isSome, r.microsecond.isSome,
   r.tzname.isSome, r.tzoffset.isSome, r.ampm.isSome,
   r.any_unused_tokens.isSome].count true

/-- Python truthiness of an optional string (`None` and `''` are falsy). -/
def falsyStr (o : Option String) : Bool :=
  match o with
  | none => true
  | some s => s = ""

/-- The field normalization of `parserinfo.validate` (its body before the
unconditional `return True`). -/
def validateRes (info : Pinfo) (res : MRes) : MRes :=
  let res := match res.year with
    | some y => { res with year := some (convertyear info y res.century_specified) }
    | none => res
  if (res.tzoffset = some 0 ∧ falsyStr res.tzname) ∨
      res.tzname = some "Z" ∨ res.tzname = some "z" then
    { res with tzname := some "UTC", tzoffset := some 0 }
  else if res.tzoffset ≠ some 0 ∧ ¬falsyStr res.tzname ∧
      utczoneF (res.tzname.getD "") then
    { res with tzoffset := some 0 }
  else res

/-- `parserinfo.validate`: normalizes the record and returns `True`. -/
def validate (info : Pinfo) (res : MRes) : MRes × Bool :=
  (validateRes info res, true)

/-! ## The YMD slot accumulator (`_ymd`) -/

/-- Axis labels for `_ymd.append` (`'Y'`, `'M'`, `'D'`). -/
inductive Label where
  | Y | M | D
deriving Repr, DecidableEq

/-- Values passed to `_ymd.append`: Python strings (which have `__len__`)
or integers. -/
inductive Val where
  | str (s : String)
  | int (n : Int)
deriving Repr, DecidableEq

/-- The `_ymd` accumulator: the underlying list plus the century flag and
the three tag indices. -/
structure YMD where
  vals : List Int := []
  century_specified : Bool := false
  dstridx : Option Nat := none
  mstridx : Option Nat := none
  ystridx : Option Nat := none
deriving Repr, DecidableEq

/-- `_ymd.has_year`. -/
def YMD.has_year (y : YMD) : Bool := y.ystridx.isSome

/-- `_ymd.has_month`. -/
def YMD.has_month (y : YMD) : Bool := y.mstridx.isSome

/-- `_ymd.has_day`. -/
def YMD.has_day (y : YMD) : Bool := y.dstridx.isSome

/-- `_ymd.could_be_day`. -/
def couldBeDay (y : YMD) (v : Int) : Bool :=
  if y.has_day then false else 1 ≤ v ∧ v ≤ 31

/-- Model of `int(val)` inside `_ymd.append`. -/
def pyIntVal : Val → Option Int
  | .str s => pyIntOfString s
  | .int n => some n

/-- `_ymd.append`.  Mirrors the in-place mutation order of the source: the
century flag is set (and the label force-set to `'Y'`) for >2-digit strings
and >100 integers before any raise; `int(val)` is appended to the list
before the duplicate-tag checks, so on a duplicate-tag error the list has
already grown while the tag indices are untouched. -/
def ymdAppend (y0 : YMD) (val : Val) (label0 : Option Label) : YMD × Option PErr :=
  let autoYear : Bool :=
    match val with
    | .str s => pyIsdigit s && s.length > 2
    | .int n => n > 100
  let y := if autoYear then { y0 with century_specified := true } else y0
  if autoYear ∧ ¬(label0 = none ∨ label0 = some .Y) then
    (y, some .labelConflict)
  else
    let label := if autoYear then some Label.Y else label0
    match pyIntVal val with
    | none => (y, some .intConv)
    | some n =>
      let y := { y with vals := y.vals ++ [n] }
      match label with
      | some .M =>
        if y.has_month then (y, some .dupMonth)
        else ({ y with mstridx := some (y.vals.length - 1) }, none)
      | some .D =>
        if y.has_day then (y, some .dupDay)
        else ({ y with dstridx := some (y.vals.length - 1) }, none)
      | some .Y =>
        if y.has_year then (y, some .dupYear)
        else ({ y with ystridx := some (y.vals.length - 1) }, none)
      | none => (y, none)

/-- Indexing `self[i]` inside `resolve_ymd`; every access in the source is
in range for accumulators built through `append`. -/
def gv (y : YMD) (i : Nat) : Int := y.vals.getD i 0

/-- The `strids` dictionary of `resolve_ymd`: the tag indices present. -/
structure Strids where
  y : Option Nat := none
  m : Option Nat := none
  d : Option Nat := none
deriving Repr, DecidableEq

/-- `len(strids)`. -/
def stridsSize (s : Strids) : Nat :=
  (if s.y.isSome then 1 else 0) + (if s.m.isSome then 1 else 0) +
    (if s.d.isSome then 1 else 0)

/-- `_ymd._resolve_from_stridxs`: mutates `strids` in place (filling in a
third axis by elimination when two of three are known) and asserts that
more than one axis is known; the asserts raise `AssertionError`. -/
def resolveFromStridxs (valsLen : Nat) (s0 : Strids) : Except PErr Strids := do
  let s ←
    if valsLen = 3 ∧ stridsSize s0 = 2 then
      let missing := (List.range 3).filter
        (fun x => s0.y ≠ some x ∧ s0.m ≠ some x ∧ s0.d ≠ some x)
      let keys : List Label :=
        (if s0.y = none then [Label.Y] else []) ++
        (if s0.m = none then [Label.M] else []) ++
        (if s0.d = none then [Label.D] else [])
      match missing, keys with
      | [v], [k] =>
        pure (match k with
          | .Y => { s0 with y := some v }
          | .M => { s0 with m := some v }
          | .D => { s0 with d := some v })
      | _, _ => throw PErr.assertFailed
    else pure s0
  if stridsSize s > 1 then pure s else throw PErr.assertFailed

/-- `_ymd.resolve_ymd`, ported branch for branch.  Returns
`(year, month, day)`, each possibly `none`. -/
def resolveYmd (yy : YMD) (yearfirst dayfirst : Bool) :
    Except PErr (Option Int × Option Int × Option Int) := do
  let lenYmd := yy.vals.length
  let s0 : Strids := ⟨yy.ystridx, yy.mstridx, yy.dstridx⟩
  let strids ←
    if (lenYmd = stridsSize s0 ∧ stridsSize s0 > 0) ∨
        (lenYmd = 3 ∧ stridsSize s0 = 2) then
      resolveFromStridxs lenYmd s0
    else pure s0
  if lenYmd > 3 then throw PErr.valueError
  else if lenYmd = 1 ∨ (yy.mstridx.isSome ∧ lenYmd = 2) then
    -- One member, or two members with a month string
    match yy.mstridx with
    | some mi =>
      let month := gv yy mi
      if lenYmd = 2 ∨ yy.ystridx.isSome then
        match yy.ystridx with
        | some yi => pure (some (gv yy yi), some month, none)
        | none => pure (some (gv yy 0), some month, none)
      else pure (none, some month, some (gv yy 0))
    | none =>
      if lenYmd > 1 ∨ yy.ystridx.isSome then
        match yy.ystridx with
        | some yi => pure (some (gv yy yi), none, none)
        | none => pure (some (gv yy 0), none, none)
      else pure (none, none, none)
  else if lenYmd = 2 then
    -- Two members with numbers
    if yy.has_year then
      let yi := yy.ystridx.getD 0
      let year := gv yy yi
      let other := gv yy (1 - yi)
      if couldBeDay yy other then pure (some year, none, some other)
      else pure (some year, some other, none)
    else if yy.has_month then
      let mi := yy.mstridx.getD 0
      let month := gv yy mi
      let other := gv yy (1 - mi)
      if couldBeDay yy other then pure (none, some month, some other)
      else pure (some other, some month, none)
    else if yy.has_day then
      let di := yy.dstridx.getD 0
      let day := gv yy di
      let other := gv yy (1 - di)
      if couldBeDay yy other then pure (none, some other, some day)
      else pure (some other, none, some day)
    else
      let v0 := gv yy 0
      let v1 := gv yy 1
      if v0 > 31 then pure (some v0, some v1, none)
      else if v1 > 31 then pure (some v1, some v0, none)
      else if dayfirst ∧ v1 ≤ 12 then pure (none, some v1, some v0)
      else if v0 > 12 then pure (none, some v1, some v0)
      else pure (none, some v0, some v1)
  else if lenYmd = 3 then
    -- Three members
    if yy.has_year then
      let yi := yy.ystridx.getD 0
      let year := gv yy yi
      if stridsSize strids > 1 then
        -- `month = self.get(strids.get('m'), None)`: `list` has no
        -- attribute `get`, so this line raises `AttributeError`.
        throw PErr.attrError
      else
        let other := (yy.vals.enum.filter (fun p => p.1 ≠ yi)).map (fun p => p.2)
        if yy.mstridx.isSome then
          let month := gv yy (yy.mstridx.getD 0)
          let other := other.erase month
          pure (some year, some month, some (other.getD 0 0))
        else if yy.dstridx.isSome then
          let day := gv yy (yy.dstridx.getD 0)
          let other := other.erase day
          pure (some year, some (other.getD 0 0), some day)
        else
          let o0 := other.getD 0 0
          let o1 := other.getD 1 0
          if o0 > 12 ∧ o1 ≤ 12 then pure (some year, some o1, some o0)
          else if o1 > 12 ∧ o0 ≤ 12 then pure (some year, some o0, some o1)
          else if dayfirst ∧ o1 ≤ 31 then pure (some year, some o1, some o0)
          else if o0 ≤ 31 then pure (some year, some o0, some o1)
          else pure (some year, none, none)
    else if yy.mstridx.isSome then
      let mi := yy.mstridx.getD 0
      let month := gv yy mi
      let other := (yy.vals.enum.filter (fun p => p.1 ≠ mi)).map (fun p => p.2)
      if yy.ystridx.isSome then
        let year := gv yy (yy.ystridx.getD 0)
        let other := other.erase year
        pure (some year, some month, some (other.getD 0 0))
      else if yy.dstridx.isSome then
        let day := gv yy (yy.dstridx.getD 0)
        let other := other.erase day
        pure (some (other.getD 0 0), some month, some day)
      else
        let o0 := other.getD 0 0
        let o1 := other.getD 1 0
        if o0 > 31 ∧ o1 ≤ 31 then pure (some o0, some month, some o1)
        else if o1 > 31 ∧ o0 ≤ 31 then pure (some o1, some month, some o0)
        else if o0 > 12 ∧ o1 ≤ 12 then pure (some o1, some month, some o0)
        else if o1 > 12 ∧ o0 ≤ 12 then pure (some o0, some month, some o1)
        else if yearfirst ∧ o0 ≤ 31 then pure (some o0, some month, some o1)
        else if ¬yearfirst ∧ o1 ≤ 31 then pure (some o1, some month, some o0)
        else if dayfirst = yearfirst then pure (some o1, some month, some o0)
        else if dayfirst then pure (some o1, some month, some o0)
        else pure (some o0, some month, some o1)
    else if yy.dstridx.isSome then
      let di := yy.dstridx.getD 0
      let day := gv yy di
      let other := (yy.vals.enum.filter (fun p => p.1 ≠ di)).map (fun p => p.2)
      if yy.ystridx.isSome then
        let year := gv yy (yy.ystridx.getD 0)
        let other := other.erase year
        pure (some year, some (other.getD 0 0), some day)
      else
        let o0 := other.getD 0 0
        let o1 := other.getD 1 0
        if o0 > 31 ∧ o1 ≤ 12 then pure (some o0, some o1, some day)
        else if o1 > 31 ∧ o0 ≤ 12 then pure (some o1, some o0, some day)
        else if o0 > 12 ∧ o1 ≤ 31 then pure (some o1, some o0, some day)
        else if o1 > 12 ∧ o0 ≤ 31 then pure (some o0, some o1, some day)
        else if yearfirst ∧ o0 ≤ 12 then pure (some o0, some o1, some day)
        else if ¬yearfirst ∧ o1 ≤ 12 then pure (some o1, some o0, some day)
        else if dayfirst = yearfirst then pure (some o1, some o0, some day)
        else if dayfirst then pure (some o1, some o0, some day)
        else pure (some o0, some o1, some day)
    else
      let v0 := gv yy 0
      let v1 := gv yy 1
      let v2 := gv yy 2
      if (v0 > 31 ∨ yy.ystridx = some 0) ∧ v1 ≤ 12 ∧ v2 ≤ 31 then
        if yearfirst ∨ v0 > 31 then pure (some v0, some v1, some v2)
        else pure (some v2, some v1, some v0)
      else if v0 > 12 ∧ (v1 ≤ 12 ∨ v2 ≤ 12) ∧ v2 ≤ 31 then
        if v1 ≤ 12 then pure (some v2, some v1, some v0)
        else pure (some v1, some v2, some v0)
      else if v1 > 31 ∧ v0 ≤ 12 ∧ v2 ≤ 12 then
        pure (some v1, some v0, some v2)
      else if v1 > 12 ∧ v2 ≤ 31 then
        if dayfirst ∧ v2 ≤ 12 then pure (some v1, some v2, some v0)
        else if v0 ≤ 12 then pure (some v2, some v0, some v1)
        else pure (some v2, some v1, some v0)
      else if v2 > 31 then
        if dayfirst ∧ v1 ≤ 12 then pure (some v2, some v1, some v0)
        else if yearfirst then pure (some v0, some v1, some v2)
        else if v0 ≤ 12 then pure (some v2, some v0, some v1)
        else pure (some v2, some v1, some v0)
      else if v0 > 12 then pure (some v2, some v1, some v0)
      else if v1 > 12 then
        if dayfirst then pure (some v1, some v2, some v0)
        else pure (some v2, some v0, some v1)
      else if v2 > 12 then
        if dayfirst then pure (some v2, some v1, some v0)
        else if yearfirst then pure (some v0, some v1, some v2)
        else pure (some v2, some v0, some v1)
      else
        if dayfirst then pure (some v2, some v1, some v0)
        else if yearfirst then pure (some v0, some v1, some v2)
        else pure (some v2, some v0, some v1)
  else pure (none, none, none)

/-! ## Parser helpers -/

/-- `parser._ampm_valid`: in strict mode an hour outside 0..12 raises; in
fuzzy mode a missing or out-of-range hour rejects the marker. -/
def ampmValid (hour : Option Int) (fuzzy : Bool) : Except PErr Bool :=
  match hour with
  | none => if fuzzy then pure false else pure true
  | some h =>
    if 0 ≤ h ∧ h ≤ 12 then pure true
    else if fuzzy then pure false
    else throw PErr.ampmRange

/-- Python `str.isalpha` on a token (ASCII fragment). -/
def pyIsalpha (s : String) : Bool := s ≠ "" && s.data.all isword

/-- `parser._could_be_tzname`. -/
def couldBeTzname (hour : Option Int) (tzname : Option String)
    (tzoffset : Option Int) (token : String) : Bool :=
  hour.isSome && tzname = none && tzoffset = none &&
    token.length ≤ 5 && pyIsalpha token

/-- `parser._parsems`: split an `I[.F]` seconds string into seconds and
microseconds.  A string with more than one dot makes the two-way unpacking
raise `ValueError`. -/
def parsems (value : String) : Except PErr (Int × Int) :=
  if ¬ value.data.contains '.' then
    match pyIntOfString value with
    | some n => pure (n, 0)
    | none => throw PErr.intConv
  else
    match splitDot value.data with
    | [i, f] =>
      match pyIntOfString i.asString,
          pyIntOfString ((f ++ List.replicate 6 '0').take 6).asString with
      | some si, some us => pure (si, us)
      | _, _ => throw PErr.intConv
    | _ => throw PErr.valueError

/-- Indexing `tokens[i]` with Python semantics: out of range raises
`IndexError`. -/
def getTok (l : List String) (i : Nat) : Except PErr String :=
  match l.get? i with
  | some t => pure t
  | none => throw PErr.indexError

/-- `_ymd.append` with Python raise semantics: the error aborts the parse. -/
def appendE (y : YMD) (val : Val) (label : Option Label) : Except PErr YMD :=
  match ymdAppend y val label with
  | (y2, none) => pure y2
  | (_, some e) => throw e

/-- Model of `int(s)` raising on failure. -/
def intOfStringE (s : String) : Except PErr Int :=
  match pyIntOfString s with
  | some n => pure n
  | none => throw PErr.intConv

/-! ## Calendar arithmetic (for `datetime` construction and the builder) -/

/-- Leap-year predicate of the proleptic Gregorian calendar. -/
def isLeap (y : Int) : Bool := (y % 4 = 0 ∧ y % 100 ≠ 0) ∨ y % 400 = 0

/-- `calendar.monthrange(y, m)[1]`: the number of days in the month. -/
def monthrange (y m : Int) : Int :=
  if m = 2 then (if isLeap y then 29 else 28)
  else if m = 4 ∨ m = 6 ∨ m = 9 ∨ m = 11 then 30
  else 31

/-- Days since 1970-01-01 of a proleptic Gregorian date (civil-from-date). -/
def daysFromCivil (y m d : Int) : Int :=
  let y := y - (if m ≤ 2 then 1 else 0)
  let era := (if y ≥ 0 then y else y - 399) / 400
  let yoe := y - era * 400
  let mp := (m + 9) % 12
  let doy := (153 * mp + 2) / 5 + d - 1
  let doe := yoe * 365 + yoe / 4 - yoe / 100 + doy
  era * 146097 + doe - 719468

/-- Proleptic Gregorian date from days since 1970-01-01 (date-from-civil). -/
def civilFromDays (z0 : Int) : Int × Int × Int :=
  let z := z0 + 719468
  let era := (if z ≥ 0 then z else z - 146096) / 146097
  let doe := z - era * 146097
  let yoe := (doe - doe / 1460 + doe / 36524 - doe / 146096) / 365
  let y := yoe + era * 400
  let doy := doe - (365 * yoe + yoe / 4 - yoe / 100)
  let mp := (5 * doy + 2) / 153
  let d := doy - (153 * mp + 2) / 5 + 1
  let m := mp + (if mp < 10 then 3 else -9)
  (y + (if m ≤ 2 then 1 else 0), m, d)

/-- `datetime.datetime(year, 1, 1) + datetime.timedelta(days = k)`
(used by the Julian day-of-year branch). -/
def jan1PlusDays (year k : Int) : Int × Int × Int :=
  civilFromDays (daysFromCivil year 1 1 + k)

/-! ## `parser._parse_numeric_token` -/

/-- `parser._parse_numeric_token`, ported branch for branch.  Returns the
updated index together with the updated accumulator and result record;
Python exceptions abort the parse.  The two sites that use `info.hms` /
`info.ampm` as containers (`tokens[i + 1] in info.hms`,
`info.ampm[tokens[i]]`) apply `in`/indexing to bound methods and raise
`TypeError`; they are ported as such. -/
def parseNumericToken (tokens : List String) (idx : Nat)
    (ymd0 : YMD) (res0 : MRes) (_fuzzy : Bool) :
    Except PErr (Nat × YMD × MRes) := do
  let value_repr := tokens.getD idx ""
  match pyFloat value_repr with
  | none => pure (idx, ymd0, res0)
  | some value => do
    let len_li := value_repr.length
    let i := idx
    let s := value_repr
    -- 1. Check if it's a year, month or day
    let ymd ←
      if (len_li = 4 ∧ pyIsdigit s ∧ value ≤ 3000) ∨
          (6 ≤ len_li ∧ len_li ≤ 8 ∧ pyIsdigit s ∧
            (tokens.drop (i + 1)).take 2 ≠ [".", "."]) then
        if len_li = 8 then do
          -- DDMMYYYY
          let y ← appendE ymd0 (.str (strTake s 2)) (some .D)
          let y ← appendE y (.str (strSlice s 2 4)) (some .M)
          appendE y (.str (strDrop s 4)) (some .Y)
        else if len_li = 6 then do
          -- DDMMYY
          let y ← appendE ymd0 (.str (strTake s 2)) (some .D)
          let y ← appendE y (.str (strSlice s 2 4)) (some .M)
          appendE y (.str (strDrop s 4)) (some .Y)
        else if len_li = 4 then
          -- YYYY
          appendE ymd0 (.str s) (some .Y)
        else pure ymd0
      else if len_li = 6 ∨ len_li = 8 then do
        -- YYMMDD or YYYYMMDD
        let y ←
          if len_li = 6 then appendE ymd0 (.str (strTake s 2)) (some .Y)
          else appendE ymd0 (.str (strTake s 4)) (some .Y)
        let y ← appendE y (.str (strSlice s (len_li - 4) (len_li - 2))) (some .M)
        appendE y (.str (strDrop s (len_li - 2))) (some .D)
      else if (len_li = 7 ∨ len_li = 8) ∧ pyIsdigit s then
        -- YYYYDDD / DDMMYYY / DDMMYYYY / YYYYMMDD secondary path
        if len_li = 7 then
          if pyIsdigit (strDrop s 4) ∧
              1900 ≤ strNatVal (strDrop s 4) ∧ strNatVal (strDrop s 4) ≤ 3000 then do
            let y ← appendE ymd0 (.str (strTake s 2)) (some .D)
            let y ← appendE y (.str (strSlice s 2 4)) (some .M)
            appendE y (.str (strDrop s 4)) (some .Y)
          else if pyIsdigit (strTake s 4) ∧
              1900 ≤ strNatVal (strTake s 4) ∧ strNatVal (strTake s 4) ≤ 3000 then do
            let year := (strNatVal (strTake s 4) : Int)
            let dayOfYear := (strNatVal (strDrop s 4) : Int)
            let dt := jan1PlusDays year (dayOfYear - 1)
            let y ← appendE ymd0 (.int dt.1) (some .Y)
            let y ← appendE y (.int dt.2.1) (some .M)
            appendE y (.int dt.2.2) (some .D)
          else appendE ymd0 (.str s) none
        else
          if pyIsdigit (strDrop s 4) ∧
              1900 ≤ strNatVal (strDrop s 4) ∧ strNatVal (strDrop s 4) ≤ 3000 then do
            let y ← appendE ymd0 (.str (strTake s 2)) (some .D)
            let y ← appendE y (.str (strSlice s 2 4)) (some .M)
            appendE y (.str (strDrop s 4)) (some .Y)
          else if pyIsdigit (strTake s 4) ∧
              1900 ≤ strNatVal (strTake s 4) ∧ strNatVal (strTake s 4) ≤ 3000 then do
            let y ← appendE ymd0 (.str (strTake s 4)) (some .Y)
            let y ← appendE y (.str (strSlice s 4 6)) (some .M)
            appendE y (.str (strDrop s 6)) (some .D)
          else appendE ymd0 (.str s) none
      else appendE ymd0 (.str value_repr) none
    -- 2. Clock-time branches, in source order
    if i + 1 < tokens.length then
      if tokens.getD (i + 1) "" = ":" then do
        let t2 ← getTok tokens (i + 2)
        if (hmsF t2).isNone then do
          -- HH:MM or MM:SS
          let hms_idx := (hmsF t2).getD 0
          let res1 ←
            if hms_idx = 1 then do
              let m2 ← intOfStringE t2
              pure { res0 with hour := some (ratTrunc value), minute := some m2 }
            else if hms_idx = 2 then do
              let s2 ← intOfStringE t2
              pure { res0 with minute := some (ratTrunc value), second := some s2 }
            else do
              let m2 ← intOfStringE t2
              pure { res0 with hour := some (ratTrunc value), minute := some m2 }
          if i + 3 < tokens.length ∧ tokens.getD (i + 3) "" = ":" then do
            let t4 ← getTok tokens (i + 4)
            let sec ← intOfStringE t4
            pure (i + 2 + 2, ymd, { res1 with second := some sec })
          else pure (i + 2, ymd, res1)
        else do
          -- HH:MM[:SS[.f]]
          let v2 ←
            match pyFloat t2 with
            | some q => pure q
            | none => throw PErr.intConv
          let res1 := { res0 with hour := some (ratTrunc value),
                                  minute := some (ratTrunc v2),
                                  microsecond := some (ratTrunc (ratFrac v2 * 1000000)) }
          if i + 3 < tokens.length ∧ tokens.getD (i + 3) "" = ":" ∧
              i + 4 < tokens.length then do
            let t4 := tokens.getD (i + 4) ""
            let v4 ←
              match pyFloat t4 with
              | some q => pure q
              | none => throw PErr.intConv
            pure (i + 2 + 2, ymd,
              { res1 with second := some (ratTrunc v4),
                          microsecond := some (ratTrunc (ratFrac v4 * 1000000)) })
          else pure (i + 2, ymd, res1)
      else
        -- `elif i + 1 < len(tokens) and tokens[i + 1] in info.hms` —
        -- `info.hms` is a bound method, so the membership test raises.
        throw PErr.typeError
    else
      if res0.hour = none ∧ value < 24 ∧ i + 1 < tokens.length ∧
          tokens.getD (i + 1) "" ≠ ":" then
        -- body would run `tokens[i + 1] in info.ampm` on a bound method
        throw PErr.typeError
      else if res0.minute = none ∧ res0.hour.isSome ∧ value < 60 then
        pure (i, ymd, { res0 with minute := some (ratTrunc value) })
      else if res0.second = none ∧ res0.minute.isSome ∧ value < 60 then do
        let sm ← parsems value_repr
        pure (i, ymd, { res0 with second := some sm.1, microsecond := some sm.2 })
      else if res0.hour.isSome ∧ (ampmF (tokens.getD i "")).isSome then
        -- `res.ampm = info.ampm[tokens[i]]` indexes a bound method
        throw PErr.typeError
      else
        -- fuzzy: pass; otherwise return i — both fall through to `return i`
        pure (i, ymd, res0)

/-! ## The main dispatch loop (`parser._parse`) -/

/-- The `while i < len_l` dispatch loop of `parser._parse`, ported branch
for branch.  The token list is threaded because the signed-offset lookahead
mutates it (`l[i + 1] = l[i + 1] + l[i + 2]`).  The fuel argument strictly
exceeds the number of loop iterations (`i` grows by at least one each
time). -/
def dispatchLoop (info : Pinfo) (fuzzy : Bool) :
    Nat → List String → Nat → YMD → MRes → List Nat →
    Except PErr (List String × YMD × MRes × List Nat)
  | 0, l, _, ymd, res, skipped => pure (l, ymd, res, skipped)
  | fuel + 1, l, i, ymd, res, skipped =>
    if i ≥ l.length then pure (l, ymd, res, skipped)
    else
      let tok := l.getD i ""
      match pyFloat tok with
      | some _ => do
        -- Numeric token
        let r ← parseNumericToken l i ymd res fuzzy
        dispatchLoop info fuzzy fuel l (r.1 + 1) r.2.1 r.2.2 skipped
      | none =>
        match weekdayF tok with
        | some wd =>
          -- Check weekday
          dispatchLoop info fuzzy fuel l (i + 1) ymd
            { res with weekday := some (wd : Int) } skipped
        | none =>
          match monthF tok with
          | some mv => do
            -- Check month name
            let ymd1 ← appendE ymd (.int (mv : Int)) (some .M)
            let step ←
              if i + 1 < l.length then
                if l.getD (i + 1) "" = "-" ∨ l.getD (i + 1) "" = "/" then do
                  -- Jan-01[-99]
                  let sep := l.getD (i + 1) ""
                  let t2 ← getTok l (i + 2)
                  let ymd2 ← appendE ymd1 (.str t2) none
                  if i + 3 < l.length ∧ l.getD (i + 3) "" = sep then do
                    let t4 ← getTok l (i + 4)
                    let ymd3 ← appendE ymd2 (.str t4) none
                    pure (i + 4, ymd3)
                  else pure (i + 2, ymd2)
                else if i + 4 < l.length ∧ l.getD (i + 1) "" = " " ∧
                    l.getD (i + 3) "" = " " ∧ pertainF (l.getD (i + 2) "") then do
                  -- Jan of 01: 01 is clearly year
                  let ymd2 ←
                    if pyIsdigit (l.getD (i + 4) "") then do
                      let v := (strNatVal (l.getD (i + 4) "") : Int)
                      let year := toString (convertyear info v false)
                      appendE ymd1 (.str year) (some .Y)
                    else pure ymd1
                  pure (i + 4, ymd2)
                else pure (i, ymd1)
              else pure (i, ymd1)
            dispatchLoop info fuzzy fuel l (step.1 + 1) step.2 res skipped
          | none =>
            match ampmF tok with
            | some ap => do
              -- Check am/pm
              let isAmpm ← ampmValid res.hour fuzzy
              if isAmpm then
                dispatchLoop info fuzzy fuel l (i + 1) ymd
                  { res with ampm := some (ap : Int) } skipped
              else if fuzzy then
                dispatchLoop info fuzzy fuel l (i + 1) ymd res (skipped ++ [i])
              else
                dispatchLoop info fuzzy fuel l (i + 1) ymd res skipped
            | none =>
              if couldBeTzname res.hour res.tzname res.tzoffset tok then
                -- Check for a timezone name
                let res1 := { res with tzname := some tok, tzoffset := tzoffsetF tok }
                if i + 1 < l.length ∧
                    (l.getD (i + 1) "" = "+" ∨ l.getD (i + 1) "" = "-") then do
                  -- GMT+3: the offset is inverted and the name dropped when UTC-like
                  let t2 ← getTok l (i + 2)
                  let l2 := l.set (i + 1) (l.getD (i + 1) "" ++ t2)
                  let res2 := { res1 with tzoffset := none }
                  let res3 := if utczoneF (res2.tzname.getD "") then
                      { res2 with tzname := none }
                    else res2
                  dispatchLoop info fuzzy fuel l2 (i + 2 + 1) ymd res3 skipped
                else
                  dispatchLoop info fuzzy fuel l (i + 1) ymd res1 skipped
              else if res.hour.isSome ∧ (tok = "+" ∨ tok = "-") then do
                -- Check for a numbered timezone
                let signal : Int := if tok = "+" then 1 else -1
                let t1 ← getTok l (i + 1)
                let len_li := t1.length
                let off ←
                  if len_li = 4 then do
                    -- -0300
                    let h ← intOfStringE (strTake t1 2)
                    let m ← intOfStringE (strDrop t1 2)
                    pure (h, m, i)
                  else if i + 2 < l.length ∧ l.getD (i + 2) "" = ":" then do
                    -- -03:00
                    let h ← intOfStringE t1
                    let t3 ← getTok l (i + 3)
                    let m ← intOfStringE t3
                    pure (h, m, i + 2)
                  else if len_li ≤ 2 then do
                    -- -[0]3
                    let h ← intOfStringE t1
                    pure (h, 0, i)
                  else throw PErr.valueError
                let res1 := { res with
                  tzoffset := some (signal * (off.1 * 3600 + off.2.1 * 60)) }
                let step ←
                  if off.2.2 + 5 < l.length ∧ jumpF (l.getD (off.2.2 + 2) "") ∧
                      l.getD (off.2.2 + 3) "" = "(" ∧ l.getD (off.2.2 + 5) "" = ")" then
                    -- -0300 (BRST)
                    pure (off.2.2 + 4,
                      { res1 with tzname := some (l.getD (off.2.2 + 4) "") })
                  else pure (off.2.2, res1)
                dispatchLoop info fuzzy fuel l (step.1 + 2 + 1) ymd step.2 skipped
              else if ¬(jumpF tok ∨ fuzzy) then
                -- Check jumps
                throw PErr.valueError
              else if fuzzy then
                dispatchLoop info fuzzy fuel l (i + 1) ymd res (skipped ++ [i])
              else
                dispatchLoop info fuzzy fuel l (i + 1) ymd res skipped

/-- `parser._recombine_skipped`: the `_combine_range` closure. -/
def combineRange (tokens : List String) (iStart iEnd : Nat) : String :=
  String.join ((tokens.drop iStart).take (iEnd + 1 - iStart))

/-- The range-building loop of `parser._recombine_skipped`: walks the
sorted index list carrying the current range start and the previous
index. -/
def buildRanges : List Nat → Nat → Nat → List (Nat × Nat)
  | [], rangeStart, prev => [(rangeStart, prev)]
  | idx :: rest, rangeStart, prev =>
    if prev + 1 ≠ idx then (rangeStart, prev) :: buildRanges rest idx idx
    else buildRanges rest rangeStart idx

/-- `parser._recombine_skipped`. -/
def recombineSkipped (tokens : List String) (skippedIdxs : List Nat) : List String :=
  match skippedIdxs with
  | [] => []
  | [i] => [tokens.getD i ""]
  | _ =>
    match skippedIdxs.mergeSort (· ≤ ·) with
    | [] => []
    | first :: rest =>
      (buildRanges rest first first).map (fun r => combineRange tokens r.1 r.2)

/-- The tail of `parser._parse` after the dispatch loop and YMD resolution:
the `info.validate(res)` check (raising when it returns a falsy value) and
the optional recombination of skipped tokens. -/
def finishValidate (info : Pinfo) (res : MRes) (fwt : Bool) (l : List String)
    (skipped : List Nat) : Except PErr (MRes × Option (List String)) :=
  match validate info res with
  | (res2, ok) =>
    if ok then
      if fwt then .ok (res2, some (recombineSkipped l skipped))
      else .ok (res2, none)
    else .error PErr.validateFailed

/-- `parser._parse`: tokenize, dispatch, resolve the YMD accumulator,
validate. -/
def runParse (info : Pinfo) (timestr : String) (dayfirst yearfirst : Option Bool)
    (fuzzy0 fwt : Bool) : Except PErr (MRes × Option (List String)) := do
  let fuzzy := fuzzy0 || fwt
  let yf := yearfirst.getD info.yearfirst
  let df := dayfirst.getD info.dayfirst
  let l := timelexSplit timestr
  let r ← dispatchLoop info fuzzy (l.length + 1) l 0 {} {} []
  let ymdRes ← resolveYmd r.2.1 yf df
  let res := { r.2.2.1 with century_specified := r.2.1.century_specified,
                            year := ymdRes.1, month := ymdRes.2.1, day := ymdRes.2.2 }
  finishValidate info res fwt r.1 r.2.2.2

/-! ## The result builder (`parser._build_naive_datetime` and `parse`) -/

/-- A naive `datetime.datetime` value. -/
structure PyDateTime where
  year : Int
  month : Int
  day : Int
  hour : Int := 0
  minute : Int := 0
  second : Int := 0
  microsecond : Int := 0
deriving Repr, DecidableEq

/-- Field validation performed by `datetime.replace`. -/
def validDateTime (d : PyDateTime) : Bool :=
  1 ≤ d.year ∧ d.year ≤ 9999 ∧ 1 ≤ d.month ∧ d.month ≤ 12 ∧
  1 ≤ d.day ∧ d.day ≤ monthrange d.year d.month ∧
  0 ≤ d.hour ∧ d.hour < 24 ∧ 0 ≤ d.minute ∧ d.minute < 60 ∧
  0 ≤ d.second ∧ d.second < 60 ∧ 0 ≤ d.microsecond ∧ d.microsecond < 1000000

/-- `datetime.weekday()` (Monday is 0); 1970-01-01 was a Thursday. -/
def pyWeekday (y m d : Int) : Int := (daysFromCivil y m d + 3) % 7

/-- `parser._build_naive_datetime`: overlay the parsed fields on the
baseline, clamp the baseline day to the month end when no day was parsed,
and roll forward to a parsed weekday. -/
def buildNaive (res : MRes) (dflt : PyDateTime) : Except PErr PyDateTime := do
  let cyear := res.year.getD dflt.year
  let cmonth := res.month.getD dflt.month
  let cday := res.day.getD dflt.day
  let dayRepl ←
    match res.day with
    | some d => pure (some d)
    | none =>
      -- `calendar.monthrange` rejects months outside 1..12
      if ¬(1 ≤ cmonth ∧ cmonth ≤ 12) then throw PErr.invalidDate
      else if cday > monthrange cyear cmonth then pure (some (monthrange cyear cmonth))
      else pure none
  let naive : PyDateTime :=
    { year := cyear, month := cmonth, day := dayRepl.getD dflt.day,
      hour := res.hour.getD dflt.hour, minute := res.minute.getD dflt.minute,
      second := res.second.getD dflt.second,
      microsecond := res.microsecond.getD dflt.microsecond }
  if ¬ validDateTime naive then throw PErr.invalidDate
  match res.weekday with
  | some wd =>
    if res.day = none ∨ res.day = some 0 then
      let days := (wd - pyWeekday naive.year naive.month naive.day) % 7
      let next := civilFromDays (daysFromCivil naive.year naive.month naive.day + days)
      pure { naive with year := next.1, month := next.2.1, day := next.2.2 }
    else pure naive
  | none => pure naive

/-- `parser.parse` (with `ignoretz`; the timezone-attachment step, an
external collaborator, is the identity when no timezone information was
parsed): run `_parse`, reject empty results, build the naive timestamp. -/
def pyParse (info : Pinfo) (timestr : String) (dflt : PyDateTime)
    (dayfirst yearfirst : Option Bool) (fuzzy fwt : Bool) :
    Except PErr (PyDateTime × Option (List String)) := do
  let rs ← runParse info timestr dayfirst yearfirst fuzzy fwt
  if resLen rs.1 = 0 then throw PErr.noDate
  let ret ← buildNaive rs.1 dflt
  if fwt then pure (ret, rs.2) else pure (ret, none)

/-! ## Concrete instances for the evaluation theorems -/

/-- A `parserinfo` whose reference year (`time.localtime().tm_year` at
construction) is the present-day year 2026. -/
def info2026 : Pinfo := { dayfirst := false, yearfirst := false, refYear := 2026 }

/-- A concrete baseline timestamp, 2020-01-01 00:00:00. -/
def dflt2020 : PyDateTime := ⟨2020, 1, 1, 0, 0, 0, 0⟩

/-! ## Claim theorems -/

/-- C1: refuting evaluation.  For the valid ISO-ordered input `2004-05-06`,
tokenization stops at the first `-` (its token carries state `None`, which
`__next__` treats as end of iteration), so `_parse` sees only `["2004"]`;
resolving the one year-tagged value then trips the
`assert len(...) > 1` in `_ymd._resolve_from_stridxs`.  No flag combination
yields month 5 / day 6: the parse raises instead, for all four
`dayfirst`/`yearfirst` combinations. -/
theorem c1_iso_input_raises_assertion :
    timelexSplit "2004-05-06" = ["2004"] ∧
    ∀ df yf : Bool,
      runParse info2026 "2004-05-06" (some df) (some yf) false false =
        Except.error PErr.assertFailed := by
  refine ⟨by decide, fun df yf => ?_⟩
  cases df <;> cases yf <;> decide

/-- C3: refuting evaluation.  `"12:30 AM"` and `"12:30 PM"` tokenize to
`["12"]` only (iteration stops at `:`), the result record stays empty, and
`parse` raises `String does not contain a date` instead of producing hour
0 / hour 12.  (Independently, the dispatch loop only records `res.ampm`
and contains no ±12 hour adjustment.) -/
theorem c3_ampm_inputs_raise_no_date :
    timelexSplit "12:30 AM" = ["12"] ∧
    pyParse info2026 "12:30 AM" dflt2020 none none false false =
      Except.error PErr.noDate ∧
    pyParse info2026 "12:30 PM" dflt2020 none none false false =
      Except.error PErr.noDate := by
  exact ⟨by decide, by decide, by decide⟩

/-- C4: refuting evaluation.  The numeric run `45,123456` is emitted as a
single token with the comma intact — the normalization branch is guarded by
`state == '0.'`, a value the `state` variable never holds — and the full
input `"12:30:45,123456"` tokenizes to `["12"]` and raises
`String does not contain a date` rather than yielding microsecond
123456. -/
theorem c4_decimal_comma_not_normalized :
    getToken "45,123456".data false =
      ⟨some "0", some "45,123456", [], true, []⟩ ∧
    timelexSplit "12:30:45,123456" = ["12"] ∧
    pyParse info2026 "12:30:45,123456" dflt2020 none none false false =
      Except.error PErr.noDate := by
  exact ⟨by decide, by decide, by decide⟩

/-- C5: refuting evaluation.  In fuzzy mode the prose input tokenizes to
`["Today"]` alone (iteration stops at the first space token), the lone
token is skipped, no date information remains, and `parse` raises
`String does not contain a date` — fuzzy mode does raise on this input,
with or without `fuzzy_with_tokens`. -/
theorem c5_fuzzy_prose_raises_no_date :
    timelexSplit "Today is January 1, 2047 at 8:21:00AM" = ["Today"] ∧
    pyParse info2026 "Today is January 1, 2047 at 8:21:00AM" dflt2020
      none none true false = Except.error PErr.noDate ∧
    pyParse info2026 "Today is January 1, 2047 at 8:21:00AM" dflt2020
      none none true true = Except.error PErr.noDate := by
  exact ⟨by decide, by decide, by decide⟩

/-- C6: the `convertyear` window logic itself matches the claim at its own
examples (99 → 1999, 1 → 2001 for a 2026 reference year; values ≥ 100 or
with the century flag returned unchanged), but `"99-01-01"` does not parse
to 1999: tokenization stops at the first `-`, leaving `["99"]`, and
`parse` raises `String does not contain a date`. -/
theorem c6_two_digit_year_parse_raises :
    convertyear info2026 99 false = 1999 ∧
    convertyear info2026 1 false = 2001 ∧
    convertyear info2026 150 false = 150 ∧
    convertyear info2026 7 true = 7 ∧
    timelexSplit "99-01-01" = ["99"] ∧
    pyParse info2026 "99-01-01" dflt2020 none none false false =
      Except.error PErr.noDate ∧
    pyParse info2026 "01-01-01" dflt2020 none none false false =
      Except.error PErr.noDate := by
  exact ⟨by decide, by decide, by decide, by decide, by decide, by decide, by decide⟩

/-- C7: counterexample.  The three-digit string `"123"` is neither a
4+-digit string nor a value greater than 100 given as an integer, yet
`append` auto-tags it as Year and sets the century flag: the auto-tag
threshold in the source is `len(val) > 2`, i.e. three or more digits. -/
theorem c7_three_digit_string_is_auto_tagged :
    ymdAppend {} (Val.str "123") none =
      ({ vals := [123], century_specified := true, dstridx := none,
         mstridx := none, ystridx := some 0 }, none) := rfl

/-- C9: `parserinfo.validate` ends in an unconditional `return True`, so it
returns a truthy value for every record, and the
`raise ValueError(timestr)` guarded by `if not info.validate(res)` at the
end of `_parse` can never fire. -/
theorem c9_validate_returns_true_raise_unreachable :
    (∀ (info : Pinfo) (res : MRes), (validate info res).2 = true) ∧
    (∀ (info : Pinfo) (res : MRes) (fwt : Bool) (l : List String)
        (skipped : List Nat),
      finishValidate info res fwt l skipped ≠ Except.error PErr.validateFailed) := by
  refine ⟨fun info res => rfl, fun info res fwt l skipped => ?_⟩
  cases fwt <;> simp [finishValidate, validate]

/-- No whitespace codepoint is a word or digit character. -/
theorem isspace_not_alnum : ∀ c ∈ pyIsSpaceChars, isword c = false ∧ isnum c = false := by
  decide

/-- C10: for every character of Python's whitespace set, `get_token` emits a
one-character token whose text is the single space `' '` — whatever the
whitespace character was — consuming exactly that one character (runs are
never merged), with the state component left at `None`. -/
theorem c10_whitespace_space_token (c : Char) (rest : List Char)
    (h : isspace c = true) :
    getToken (c :: rest) false = ⟨none, some " ", rest, false, []⟩ := by
  have hmem : c ∈ pyIsSpaceChars := by
    have h2 : pyIsSpaceChars.contains c = true := h
    exact List.elem_iff.mp h2
  obtain ⟨hw, hn⟩ := isspace_not_alnum c hmem
  simp [getToken, hw, hn, h]

/-- Witness for `c10_whitespace_space_token`: a tab is tokenized as the
one-character text `" "`, leaving the rest of the input untouched. -/
theorem c10_whitespace_space_token_witness :
    isspace '\t' = true ∧
      getToken ('\t' :: ['0', '7']) false = ⟨none, some " ", ['0', '7'], false, []⟩ :=
  ⟨by decide, c10_whitespace_space_token '\t' ['0', '7'] (by decide)⟩

/-- C8: appending a value under an already-occupied tag (Month, Day or
Year) raises the duplicate-field error for that axis, and the tag indices
and century flag are left untouched (only the underlying list, mutated
before the check, has grown). -/
theorem c8_duplicate_tag_append_fails :
    (∀ (y : YMD) (n : Int), y.has_month = true → 0 ≤ n → n ≤ 100 →
      (ymdAppend y (Val.int n) (some Label.M)).2 = some PErr.dupMonth ∧
      (ymdAppend y (Val.int n) (some Label.M)).1.mstridx = y.mstridx ∧
      (ymdAppend y (Val.int n) (some Label.M)).1.ystridx = y.ystridx ∧
      (ymdAppend y (Val.int n) (some Label.M)).1.dstridx = y.dstridx ∧
      (ymdAppend y (Val.int n) (some Label.M)).1.century_specified = y.century_specified ∧
      (ymdAppend y (Val.int n) (some Label.M)).1.vals = y.vals ++ [n]) ∧
    (∀ (y : YMD) (n : Int), y.has_day = true → 0 ≤ n → n ≤ 100 →
      (ymdAppend y (Val.int n) (some Label.D)).2 = some PErr.dupDay ∧
      (ymdAppend y (Val.int n) (some Label.D)).1.mstridx = y.mstridx ∧
      (ymdAppend y (Val.int n) (some Label.D)).1.ystridx = y.ystridx ∧
      (ymdAppend y (Val.int n) (some Label.D)).1.dstridx = y.dstridx ∧
      (ymdAppend y (Val.int n) (some Label.D)).1.century_specified = y.century_specified ∧
      (ymdAppend y (Val.int n) (some Label.D)).1.vals = y.vals ++ [n]) ∧
    (∀ (y : YMD) (n : Int), y.has_year = true → 0 ≤ n → n ≤ 100 →
      (ymdAppend y (Val.int n) (some Label.Y)).2 = some PErr.dupYear ∧
      (ymdAppend y (Val.int n) (some Label.Y)).1.mstridx = y.mstridx ∧
      (ymdAppend y (Val.int n) (some Label.Y)).1.ystridx = y.ystridx ∧
      (ymdAppend y (Val.int n) (some Label.Y)).1.dstridx = y.dstridx ∧
      (ymdAppend y (Val.int n) (some Label.Y)).1.century_specified = y.century_specified ∧
      (ymdAppend y (Val.int n) (some Label.Y)).1.vals = y.vals ++ [n]) := by
  refine ⟨?_, ?_, ?_⟩ <;> intro y n hocc h0 h100 <;>
    have hng : ¬(n > 100) := by omega
  · have hm2 : y.mstridx.isSome = true := hocc
    simp [ymdAppend, pyIntVal, YMD.has_month, hng, hm2]
  · have hd2 : y.dstridx.isSome = true := hocc
    simp [ymdAppend, pyIntVal, YMD.has_day, hng, hd2]
  · have hy2 : y.ystridx.isSome = true := hocc
    simp [ymdAppend, pyIntVal, YMD.has_year, hng, hy2]

/-- Witness for `c8_duplicate_tag_append_fails`: a month-tagged
accumulator rejects a second explicitly month-tagged value. -/
theorem c8_duplicate_tag_append_fails_witness :
    YMD.has_month { vals := [1], mstridx := some 0 } = true ∧ (0 : Int) ≤ 2 ∧ (2 : Int) ≤ 100 ∧
    ((ymdAppend { vals := [1], mstridx := some 0 } (Val.int 2) (some Label.M)).2 =
        some PErr.dupMonth ∧
      (ymdAppend { vals := [1], mstridx := some 0 } (Val.int 2) (some Label.M)).1.mstridx =
        some 0 ∧
      (ymdAppend { vals := [1], mstridx := some 0 } (Val.int 2) (some Label.M)).1.ystridx =
        none ∧
      (ymdAppend { vals := [1], mstridx := some 0 } (Val.int 2) (some Label.M)).1.dstridx =
        none ∧
      (ymdAppend { vals := [1], mstridx := some 0 } (Val.int 2) (some Label.M)).1.century_specified =
        false ∧
      (ymdAppend { vals := [1], mstridx := some 0 } (Val.int 2) (some Label.M)).1.vals =
        [1, 2]) :=
  ⟨by decide, by decide, by decide,
    c8_duplicate_tag_append_fails.1 { vals := [1], mstridx := some 0 } 2
      (by decide) (by decide) (by decide)⟩

/-- C7 amended: `append` auto-tags a value as Year and sets the
century-specified flag exactly when the value is a digit string of three or
more digits (the source threshold is `len(val) > 2`, not four) or an
integer greater than 100; values meeting neither condition and given no
label are stored untagged with the flag unchanged. -/
theorem c7_amended_auto_year_threshold :
    (∀ (y : YMD) (s : String), pyIsdigit s = true → 3 ≤ s.length →
      y.has_year = false →
      (ymdAppend y (Val.str s) none).2 = none ∧
      (ymdAppend y (Val.str s) none).1.century_specified = true ∧
      (ymdAppend y (Val.str s) none).1.ystridx = some y.vals.length ∧
      (ymdAppend y (Val.str s) none).1.vals = y.vals ++ [(strNatVal s : Int)] ∧
      (ymdAppend y (Val.str s) none).1.mstridx = y.mstridx ∧
      (ymdAppend y (Val.str s) none).1.dstridx = y.dstridx) ∧
    (∀ (y : YMD) (n : Int), 100 < n → y.has_year = false →
      (ymdAppend y (Val.int n) none).2 = none ∧
      (ymdAppend y (Val.int n) none).1.century_specified = true ∧
      (ymdAppend y (Val.int n) none).1.ystridx = some y.vals.length ∧
      (ymdAppend y (Val.int n) none).1.vals = y.vals ++ [n] ∧
      (ymdAppend y (Val.int n) none).1.mstridx = y.mstridx ∧
      (ymdAppend y (Val.int n) none).1.dstridx = y.dstridx) ∧
    (∀ (y : YMD) (s : String), pyIsdigit s = true → s.length ≤ 2 →
      (ymdAppend y (Val.str s) none).2 = none ∧
      (ymdAppend y (Val.str s) none).1.century_specified = y.century_specified ∧
      (ymdAppend y (Val.str s) none).1.ystridx = y.ystridx ∧
      (ymdAppend y (Val.str s) none).1.vals = y.vals ++ [(strNatVal s : Int)] ∧
      (ymdAppend y (Val.str s) none).1.mstridx = y.mstridx ∧
      (ymdAppend y (Val.str s) none).1.dstridx = y.dstridx) ∧
    (∀ (y : YMD) (n : Int), 0 ≤ n → n ≤ 100 →
      (ymdAppend y (Val.int n) none).2 = none ∧
      (ymdAppend y (Val.int n) none).1.century_specified = y.century_specified ∧
      (ymdAppend y (Val.int n) none).1.ystridx = y.ystridx ∧
      (ymdAppend y (Val.int n) none).1.vals = y.vals ++ [n] ∧
      (ymdAppend y (Val.int n) none).1.mstridx = y.mstridx ∧
      (ymdAppend y (Val.int n) none).1.dstridx = y.dstridx) := by
  refine ⟨?_, ?_, ?_, ?_⟩
  · intro y s hd hl hy
    have hl2 : s.length > 2 := by omega
    have hy2 : y.ystridx.isSome = false := hy
    simp [ymdAppend, pyIntVal, pyIntOfString, YMD.has_year, hd, hl2, hy2]
  · intro y n h100 hy
    have hy2 : y.ystridx.isSome = false := hy
    simp [ymdAppend, pyIntVal, YMD.has_year, h100, hy2]
  · intro y s hd hl
    have hl2 : ¬(s.length > 2) := by omega
    simp [ymdAppend, pyIntVal, pyIntOfString, hd, hl2]
  · intro y n h0 h100
    have hng : ¬(n > 100) := by omega
    simp [ymdAppend, pyIntVal, hng]

/-- Witness for `c7_amended_auto_year_threshold`: the three-digit string
`"123"` is auto-tagged Year on a fresh accumulator with the century flag
set. -/
theorem c7_amended_auto_year_threshold_witness :
    pyIsdigit "123" = true ∧ 3 ≤ ("123" : String).length ∧
    YMD.has_year {} = false ∧
    ((ymdAppend {} (Val.str "123") none).2 = none ∧
      (ymdAppend {} (Val.str "123") none).1.century_specified = true ∧
      (ymdAppend {} (Val.str "123") none).1.ystridx = some 0 ∧
      (ymdAppend {} (Val.str "123") none).1.vals = [123] ∧
      (ymdAppend {} (Val.str "123") none).1.mstridx = none ∧
      (ymdAppend {} (Val.str "123") none).1.dstridx = none) :=
  ⟨by decide, by decide, by decide,
    c7_amended_auto_year_threshold.1 {} "123" (by decide) (by decide) (by decide)⟩

/-- C2: counterexample.  A single dot between two digit runs stays one
token (`"12.34"` is not split into three), and a dot between two letter
runs does not yield one combined token: only the first letter run is
returned (the re-split remainder is queued on the never-read token
stack). -/
theorem c2_counterexample_dot_tokens :
    timelexSplit "12.34" = ["12.34"] ∧ timelexSplit "12.34" ≠ ["12", ".", "34"] ∧
    timelexSplit "abc.def" = ["abc"] ∧ timelexSplit "abc.def" ≠ ["abc.def"] :=
  ⟨by decide, by decide, by decide, by decide⟩

/-- The ASCII digit characters (the `isnum` class on ASCII input). -/
def digitChars : List Char := ['0', '1', '2', '3', '4', '5', '6', '7', '8', '9']

/-- The ASCII letters (the `isword` class on ASCII input). -/
def alphaChars : List Char :=
  "abcdefghijklmnopqrstuvwxyzABCDEFGHIJKLMNOPQRSTUVWXYZ".data

/-- Character-class facts about digits used by the tokenizer proofs. -/
theorem digitChars_spec :
    ∀ c ∈ digitChars, isnum c = true ∧ isword c = false ∧ ¬(c = '.' ∨ c = ',') := by
  decide

/-- Character-class facts about letters used by the tokenizer proofs. -/
theorem alphaChars_spec :
    ∀ c ∈ alphaChars, isword c = true ∧ ¬(c = '.' ∨ c = ',') := by
  decide

/-- The tokenizer loop consumes a run of digits in state `'0'`,
accumulating it onto the token. -/
theorem lexLoop_digit_run (ds : List Char) (hds : ∀ c ∈ ds, c ∈ digitChars) :
    ∀ (rest token : List Char) (seen : Bool),
      lexLoop (ds ++ rest) "0" seen token = lexLoop rest "0" seen (token ++ ds) := by
  induction ds with
  | nil => intro rest token seen; simp
  | cons d dtl ih =>
    intro rest token seen
    obtain ⟨hn, -, -⟩ := digitChars_spec d (hds d (List.mem_cons_self d dtl))
    have hdtl : ∀ c ∈ dtl, c ∈ digitChars := fun c hc => hds c (List.mem_cons_of_mem d hc)
    have step : lexLoop (d :: (dtl ++ rest)) "0" seen token =
        lexLoop (dtl ++ rest) "0" seen (token ++ [d]) := by
      conv_lhs => rw [lexLoop.eq_def]
      simp [hn]
    calc lexLoop ((d :: dtl) ++ rest) "0" seen token
        = lexLoop (dtl ++ rest) "0" seen (token ++ [d]) := step
      _ = lexLoop rest "0" seen (token ++ [d] ++ dtl) := ih hdtl rest (token ++ [d]) seen
      _ = lexLoop rest "0" seen (token ++ d :: dtl) := by simp

/-- The tokenizer loop consumes a run of letters in state `'a'`,
accumulating it onto the token. -/
theorem lexLoop_alpha_run (ds : List Char) (hds : ∀ c ∈ ds, c ∈ alphaChars) :
    ∀ (rest token : List Char) (seen : Bool),
      lexLoop (ds ++ rest) "a" seen token = lexLoop rest "a" seen (token ++ ds) := by
  induction ds with
  | nil => intro rest token seen; simp
  | cons d dtl ih =>
    intro rest token seen
    obtain ⟨hw, -⟩ := alphaChars_spec d (hds d (List.mem_cons_self d dtl))
    have hdtl : ∀ c ∈ dtl, c ∈ alphaChars := fun c hc => hds c (List.mem_cons_of_mem d hc)
    have step : lexLoop (d :: (dtl ++ rest)) "a" seen token =
        lexLoop (dtl ++ rest) "a" seen (token ++ [d]) := by
      conv_lhs => rw [lexLoop.eq_def]
      simp [hw]
    calc lexLoop ((d :: dtl) ++ rest) "a" seen token
        = lexLoop (dtl ++ rest) "a" seen (token ++ [d]) := step
      _ = lexLoop rest "a" seen (token ++ [d] ++ dtl) := ih hdtl rest (token ++ [d]) seen
      _ = lexLoop rest "a" seen (token ++ d :: dtl) := by simp

/-- Once the `eof` flag is set, iteration yields nothing more. -/
theorem lexAll_eof : ∀ (fuel : Nat) (input : List Char), lexAll fuel input true = [] := by
  intro fuel input
  cases fuel with
  | zero => rfl
  | succ n => simp [lexAll, getToken]

/-- `re.split` on `([\.,])` leaves a separator-free list whole. -/
theorem pySplitKeep_nosep (l : List Char) (h : ∀ c ∈ l, ¬(c = '.' ∨ c = ',')) :
    pySplitKeep l = [l] := by
  induction l with
  | nil => rfl
  | cons c tl ih =>
    have hc := h c (List.mem_cons_self c tl)
    have htl : ∀ x ∈ tl, ¬(x = '.' ∨ x = ',') := fun x hx => h x (List.mem_cons_of_mem c hx)
    rw [pySplitKeep]
    simp only [ih htl]
    simp [hc]

/-- `re.split` on `([\.,])` around a single dot between separator-free
runs produces exactly the three pieces. -/
theorem pySplitKeep_mid (a b : List Char) (ha : ∀ c ∈ a, ¬(c = '.' ∨ c = ','))
    (hb : ∀ c ∈ b, ¬(c = '.' ∨ c = ',')) :
    pySplitKeep (a ++ '.' :: b) = [a, ['.'], b] := by
  induction a with
  | nil =>
    rw [List.nil_append, pySplitKeep]
    simp [pySplitKeep_nosep b hb]
  | cons c tl ih =>
    have hc := ha c (List.mem_cons_self c tl)
    have htl : ∀ x ∈ tl, ¬(x = '.' ∨ x = ',') := fun x hx => ha x (List.mem_cons_of_mem c hx)
    rw [List.cons_append, pySplitKeep]
    simp only [ih htl]
    simp [hc]

/-- A separator-free list contains no dots. -/
theorem count_dot_zero (l : List Char) (h : ∀ c ∈ l, ¬(c = '.' ∨ c = ',')) :
    l.count '.' = 0 := by
  rw [List.count_eq_zero]
  intro hmem
  exact (h '.' hmem) (Or.inl rfl)

/-- `get_token` on a digit run, a dot, and a digit run: everything is
consumed into one numeric token; no re-split happens and nothing is
queued. -/
theorem getToken_digit_dot (a b : List Char) (ha : a ≠ []) (hb : b ≠ [])
    (hda : ∀ c ∈ a, c ∈ digitChars) (hdb : ∀ c ∈ b, c ∈ digitChars) :
    getToken (a ++ '.' :: b) false =
      ⟨some "0", some (a ++ '.' :: b).asString, [], true, []⟩ := by
  obtain ⟨a0, atl, rfl⟩ := List.exists_cons_of_ne_nil ha
  obtain ⟨b0, btl, rfl⟩ := List.exists_cons_of_ne_nil hb
  obtain ⟨hn0, hw0, -⟩ := digitChars_spec a0 (hda a0 (List.mem_cons_self a0 atl))
  obtain ⟨hnb0, -, -⟩ := digitChars_spec b0 (hdb b0 (List.mem_cons_self b0 btl))
  have hatl : ∀ c ∈ atl, c ∈ digitChars := fun c hc => hda c (List.mem_cons_of_mem a0 hc)
  have hbtl : ∀ c ∈ btl, c ∈ digitChars := fun c hc => hdb c (List.mem_cons_of_mem b0 hc)
  have hdotn : isnum '.' = false := by decide
  have hstep1 : lexLoop (atl ++ '.' :: b0 :: btl) "0" false [a0] =
      lexLoop ('.' :: b0 :: btl) "0" false (a0 :: atl) := by
    rw [lexLoop_digit_run atl hatl]
    simp
  have hstep2 : lexLoop ('.' :: b0 :: btl) "0" false (a0 :: atl) =
      lexLoop btl "0" false (a0 :: (atl ++ ['.', b0])) := by
    rw [lexLoop.eq_def]
    simp [hdotn, hnb0]
  have hstep3 : lexLoop btl "0" false (a0 :: (atl ++ ['.', b0])) =
      ⟨a0 :: (atl ++ '.' :: b0 :: btl), false, [], true⟩ := by
    have h := lexLoop_digit_run btl hbtl [] (a0 :: (atl ++ ['.', b0])) false
    simp at h
    rw [h]
    rw [lexLoop.eq_def]
  have hshape : a0 :: (atl ++ '.' :: b0 :: btl) = (a0 :: atl) ++ ('.' :: b0 :: btl) := by
    simp
  have hcount : List.count '.' (a0 :: (atl ++ '.' :: b0 :: btl)) = 1 := by
    have h1 : List.count '.' (a0 :: atl) = 0 :=
      count_dot_zero _ (fun c hc => (digitChars_spec c (hda c hc)).2.2)
    have h2 : List.count '.' (b0 :: btl) = 0 :=
      count_dot_zero _ (fun c hc => (digitChars_spec c (hdb c hc)).2.2)
    rw [hshape, List.count_append, h1, List.count_cons]
    simp [h2]
  have hlast : (a0 :: (atl ++ '.' :: b0 :: btl)).getLast? =
      some ((b0 :: btl).getLast (by simp)) := by
    rw [hshape, List.getLast?_append_of_ne_nil _ (by simp)]
    rw [show ('.' :: b0 :: btl) = ['.'] ++ b0 :: btl from rfl]
    rw [List.getLast?_append_of_ne_nil _ (by simp)]
    exact List.getLast?_eq_getLast _ _
  have hlastmem : (b0 :: btl).getLast (by simp) ∈ digitChars :=
    hdb _ (List.getLast_mem (by simp))
  obtain ⟨-, -, hlsep⟩ := digitChars_spec _ hlastmem
  have hne1 : (a0 :: (atl ++ '.' :: b0 :: btl)).getLast? ≠ some '.' := by
    rw [hlast]
    intro h
    exact hlsep (Or.inl (Option.some.inj h))
  have hne2 : (a0 :: (atl ++ '.' :: b0 :: btl)).getLast? ≠ some ',' := by
    rw [hlast]
    intro h
    exact hlsep (Or.inr (Option.some.inj h))
  have hpost : postProcess "0" ⟨a0 :: (atl ++ '.' :: b0 :: btl), false, [], true⟩ =
      ⟨some "0", some (a0 :: (atl ++ '.' :: b0 :: btl)).asString, [], true, []⟩ := by
    simp [postProcess, hcount, hne1, hne2]
  show getToken (a0 :: (atl ++ '.' :: b0 :: btl)) false = _
  have hg : getToken (a0 :: (atl ++ '.' :: b0 :: btl)) false =
      postProcess "0" (lexLoop (atl ++ '.' :: b0 :: btl) "0" false [a0]) := by
    simp [getToken, hw0, hn0]
  rw [hg, hstep1, hstep2, hstep3, hpost]
  simp

/-- `get_token` on a letter run, a dot, and a letter run: the combined run
is accumulated with `seenletters` set, then re-split; the first letter run
is returned and the dot and second run are queued on the token stack
(which is never read back). -/
theorem getToken_alpha_dot (a b : List Char) (ha : a ≠ []) (hb : b ≠ [])
    (hda : ∀ c ∈ a, c ∈ alphaChars) (hdb : ∀ c ∈ b, c ∈ alphaChars) :
    getToken (a ++ '.' :: b) false =
      ⟨some "a", some a.asString, [], true,
        [("a", ['.'].asString), ("a", b.asString)]⟩ := by
  obtain ⟨a0, atl, rfl⟩ := List.exists_cons_of_ne_nil ha
  obtain ⟨b0, btl, rfl⟩ := List.exists_cons_of_ne_nil hb
  obtain ⟨hw0, -⟩ := alphaChars_spec a0 (hda a0 (List.mem_cons_self a0 atl))
  obtain ⟨hwb0, -⟩ := alphaChars_spec b0 (hdb b0 (List.mem_cons_self b0 btl))
  have hatl : ∀ c ∈ atl, c ∈ alphaChars := fun c hc => hda c (List.mem_cons_of_mem a0 hc)
  have hbtl : ∀ c ∈ btl, c ∈ alphaChars := fun c hc => hdb c (List.mem_cons_of_mem b0 hc)
  have hdotw : isword '.' = false := by decide
  have hstep1 : lexLoop (atl ++ '.' :: b0 :: btl) "a" false [a0] =
      lexLoop ('.' :: b0 :: btl) "a" false (a0 :: atl) := by
    rw [lexLoop_alpha_run atl hatl]
    simp
  have hstep2 : lexLoop ('.' :: b0 :: btl) "a" false (a0 :: atl) =
      lexLoop btl "a" true (a0 :: (atl ++ ['.', b0])) := by
    rw [lexLoop.eq_def]
    simp [hdotw, hwb0]
  have hstep3 : lexLoop btl "a" true (a0 :: (atl ++ ['.', b0])) =
      ⟨a0 :: (atl ++ '.' :: b0 :: btl), true, [], true⟩ := by
    have h := lexLoop_alpha_run btl hbtl [] (a0 :: (atl ++ ['.', b0])) true
    simp at h
    rw [h]
    rw [lexLoop.eq_def]
  have hshape : a0 :: (atl ++ '.' :: b0 :: btl) = (a0 :: atl) ++ ('.' :: b0 :: btl) := by
    simp
  have hsplit : pySplitKeep (a0 :: (atl ++ '.' :: b0 :: btl)) =
      [a0 :: atl, ['.'], b0 :: btl] := by
    rw [hshape]
    exact pySplitKeep_mid _ _ (fun c hc => (alphaChars_spec c (hda c hc)).2)
      (fun c hc => (alphaChars_spec c (hdb c hc)).2)
  have hpost : postProcess "a" ⟨a0 :: (atl ++ '.' :: b0 :: btl), true, [], true⟩ =
      ⟨some "a", some (a0 :: atl).asString, [], true,
        [("a", ['.'].asString), ("a", (b0 :: btl).asString)]⟩ := by
    simp [postProcess, hsplit]
  show getToken (a0 :: (atl ++ '.' :: b0 :: btl)) false = _
  have hg : getToken (a0 :: (atl ++ '.' :: b0 :: btl)) false =
      postProcess "a" (lexLoop (atl ++ '.' :: b0 :: btl) "a" false [a0]) := by
    simp [getToken, hw0]
  rw [hg, hstep1, hstep2, hstep3, hpost]

/-- C2 amended: a single dot between two digit runs is kept inside one
numeric token (the decimal reading is deferred, not split), while for a
letter run, a dot, and a letter run the combined token is re-split: only
the first letter run is emitted and the remaining pieces are queued on
`tokenstack`, which `get_token` never reads, so they are lost to the
token sequence. -/
theorem c2_amended_dot_run_tokens :
    (∀ a b : List Char, a ≠ [] → b ≠ [] →
      (∀ c ∈ a, c ∈ digitChars) → (∀ c ∈ b, c ∈ digitChars) →
      timelexSplit (String.mk (a ++ '.' :: b)) = [(a ++ '.' :: b).asString]) ∧
    (∀ a b : List Char, a ≠ [] → b ≠ [] →
      (∀ c ∈ a, c ∈ alphaChars) → (∀ c ∈ b, c ∈ alphaChars) →
      timelexSplit (String.mk (a ++ '.' :: b)) = [a.asString] ∧
      (getToken (a ++ '.' :: b) false).queued =
        [("a", ['.'].asString), ("a", b.asString)]) := by
  constructor
  · intro a b ha hb hda hdb
    show lexAll ((a ++ '.' :: b).length + 1) (a ++ '.' :: b) false = _
    rw [lexAll]
    rw [getToken_digit_dot a b ha hb hda hdb]
    simp [lexAll_eof]
  · intro a b ha hb hda hdb
    constructor
    · show lexAll ((a ++ '.' :: b).length + 1) (a ++ '.' :: b) false = _
      rw [lexAll]
      rw [getToken_alpha_dot a b ha hb hda hdb]
      simp [lexAll_eof]
    · rw [getToken_alpha_dot a b ha hb hda hdb]

/-- Witness for `c2_amended_dot_run_tokens` at `"12.34"` and
`"abc.def"`. -/
theorem c2_amended_dot_run_tokens_witness :
    (['1', '2'] ≠ ([] : List Char) ∧ ['3', '4'] ≠ ([] : List Char) ∧
      (∀ c ∈ ['1', '2'], c ∈ digitChars) ∧ (∀ c ∈ ['3', '4'], c ∈ digitChars) ∧
      timelexSplit (String.mk (['1', '2'] ++ '.' :: ['3', '4'])) =
        [(['1', '2'] ++ '.' :: ['3', '4']).asString]) ∧
    (['a', 'b', 'c'] ≠ ([] : List Char) ∧ ['d', 'e', 'f'] ≠ ([] : List Char) ∧
      (∀ c ∈ ['a', 'b', 'c'], c ∈ alphaChars) ∧
      (∀ c ∈ ['d', 'e', 'f'], c ∈ alphaChars) ∧
      (timelexSplit (String.mk (['a', 'b', 'c'] ++ '.' :: ['d', 'e', 'f'])) =
          [['a', 'b', 'c'].asString] ∧
        (getToken (['a', 'b', 'c'] ++ '.' :: ['d', 'e', 'f']) false).queued =
          [("a", ['.'].asString), ("a", ['d', 'e', 'f'].asString)])) :=
  ⟨⟨by decide, by decide, by decide, by decide,
      c2_amended_dot_run_tokens.1 ['1', '2'] ['3', '4'] (by decide) (by decide)
        (by decide) (by decide)⟩,
    ⟨by decide, by decide, by decide, by decide,
      c2_amended_dot_run_tokens.2 ['a', 'b', 'c'] ['d', 'e', 'f'] (by decide) (by decide)
        (by decide) (by decide)⟩⟩

end Dateutil
